import Mathlib

/-!
Shallow embedding of the query-argument encoder of `cap-bpa-client`
(`src/query-builder.ts` and the `constructQuery` helper in `src/utils.ts`),
together with theorems settling the specification claims about it.

JavaScript runtime behaviour relevant to the encoder is modelled
explicitly: truthiness of values, template-literal stringification
(including `Array.prototype.join(",")` semantics where `null` and
`undefined` elements stringify to the empty string), property access
(which throws a `TypeError` on `null`/`undefined` receivers, modelled
with `Except Unit`), and `Object.entries` iteration in insertion order
(argument objects are modelled as ordered association lists).
-/

/-- A JavaScript value as it can occur inside a query-argument object:
`undefined`, `null`, a number, a string, an `AttributeArg`-shaped object
(an object with `key` and `value` string fields), or an array. -/
inductive JSValue where
  | undefined : JSValue
  | null : JSValue
  | num (n : Int) : JSValue
  | str (s : String) : JSValue
  | pair (key value : String) : JSValue
  | arr (elems : List JSValue) : JSValue

mutual

/-- Boolean equality on `JSValue` (used for the `!== undefined` checks). -/
def beqJSValue : JSValue → JSValue → Bool
  | .undefined, .undefined => true
  | .null, .null => true
  | .num n, .num m => n == m
  | .str s, .str t => s == t
  | .pair k v, .pair k2 v2 => k == k2 && v == v2
  | .arr xs, .arr ys => beqJSList xs ys
  | _, _ => false

/-- Boolean equality on lists of `JSValue`. -/
def beqJSList : List JSValue → List JSValue → Bool
  | [], [] => true
  | x :: xs, y :: ys => beqJSValue x y && beqJSList xs ys
  | _, _ => false

end

instance : BEq JSValue := ⟨beqJSValue⟩

/-- JavaScript truthiness of a value (`if (v)`): `undefined`, `null`,
the number `0` and the empty string are falsy; objects and arrays are
always truthy. -/
def truthy : JSValue → Bool
  | .undefined => false
  | .null => false
  | .num n => n != 0
  | .str s => s != ""
  | .pair _ _ => true
  | .arr _ => true

mutual

/-- Model of `Array.prototype.join(",")`: elements separated by commas. -/
def joinElems : List JSValue → String
  | [] => ""
  | [v] => elemString v
  | v :: rest => elemString v ++ "," ++ joinElems rest

/-- Stringification of one array element inside `join`: `null` and
`undefined` become the empty string, everything else its string form. -/
def elemString : JSValue → String
  | .undefined => ""
  | .null => ""
  | .num n => toString n
  | .str s => s
  | .pair _ _ => "[object Object]"
  | .arr xs => joinElems xs

end

/-- Template-literal stringification of a value. -/
def jsToString : JSValue → String
  | .undefined => "undefined"
  | .null => "null"
  | .num n => toString n
  | .str s => s
  | .pair _ _ => "[object Object]"
  | .arr xs => joinElems xs

/-- JavaScript property access `v[name]` for the fields the encoder reads
(`key` and `value`): accessing a property of `null` or `undefined` throws
a `TypeError` (modelled as `Except.error ()`); on any other non-pair value
the properties are `undefined`. -/
def getProp : JSValue → String → Except Unit JSValue
  | .undefined, _ => .error ()
  | .null, _ => .error ()
  | .pair k v, name =>
    .ok (if name = "key" then .str k else if name = "value" then .str v else .undefined)
  | _, _ => .ok .undefined

/-- Translation of `QueryBuilder.isAttributeArg`: structural check that both `key` and
`value` fields are defined (throws when the receiver is nullish). -/
def isAttributeArg (item : JSValue) : Except Unit Bool :=
  match getProp item "key", getProp item "value" with
  | .ok k, .ok v => .ok (k != JSValue.undefined && v != JSValue.undefined)
  | _, _ => .error ()

/-- Translation of `QueryBuilder.handleAttributeArgument`: the fragment
`` `${arg.key}=${arg.value}` `` (throws when `arg` is nullish). -/
def handleAttributeArgument (arg : JSValue) : Except Unit String :=
  match getProp arg "key", getProp arg "value" with
  | .ok k, .ok v => .ok (jsToString k ++ "=" ++ jsToString v)
  | _, _ => .error ()

/-- The attribute-pair loop of `QueryBuilder.handleArrayArg`: one
`handleAttributeArgument` fragment per element. -/
def attrFrags : List JSValue → Except Unit (List String)
  | [] => .ok []
  | v :: rest =>
    match handleAttributeArgument v, attrFrags rest with
    | .ok f, .ok fs => .ok (f :: fs)
    | _, _ => .error ()

/-- Translation of `QueryBuilder.handleArrayArg`: an empty array emits nothing; if the
first element is an attribute pair every element is rendered with the
attribute-pair rule, otherwise every element is rendered as
`` `${key}=${el}` ``. -/
def handleArrayArg (key : String) (values : List JSValue) : Except Unit (List String) :=
  match values with
  | [] => .ok []
  | v0 :: _ =>
    match isAttributeArg v0 with
    | .error _ => .error ()
    | .ok true => attrFrags values
    | .ok false => .ok (values.map fun el => key ++ "=" ++ jsToString el)

/-- Translation of `DEFAULT_KEYS` from `query-builder.ts` — note that the source set has
six members, including `"inline"`. -/
def DEFAULT_KEYS : List String :=
  ["skip", "top", "inline", "expand", "orderBy", "inlinecount"]

/-- Translation of `isDefaultKey` from `query-builder.ts`. -/
def isDefaultKey (key : String) : Bool :=
  DEFAULT_KEYS.contains key

/-- A query-argument object: an ordered mapping from property names to
values, iterated by `Object.entries` in insertion order. -/
structure QueryArgs where
  entries : List (String × JSValue)

/-- JavaScript named property read `arg.key` on an argument object:
the value stored at the first matching key, `undefined` when absent. -/
def QueryArgs.get (arg : QueryArgs) (key : String) : JSValue :=
  match arg.entries.find? (fun e => e.1 == key) with
  | some e => e.2
  | none => .undefined

/-- Translation of `QueryBuilder.parseAdditionalArgs`: iterate the object's entries in
insertion order, skipping default keys and `undefined` values; arrays go
to `handleArrayArg`, attribute pairs to `handleAttributeArgument`, and
anything else is rendered as `` `${k}=${v}` ``. -/
def parseAdditionalArgs : List (String × JSValue) → Except Unit (List String)
  | [] => .ok []
  | (k, v) :: rest =>
    if isDefaultKey k then parseAdditionalArgs rest
    else
      match v with
      | .undefined => parseAdditionalArgs rest
      | .arr xs =>
        match handleArrayArg k xs, parseAdditionalArgs rest with
        | .ok fs, .ok fsr => .ok (fs ++ fsr)
        | _, _ => .error ()
      | _ =>
        match isAttributeArg v with
        | .error _ => .error ()
        | .ok true =>
          match handleAttributeArgument v, parseAdditionalArgs rest with
          | .ok f, .ok fsr => .ok (f :: fsr)
          | _, _ => .error ()
        | .ok false =>
          match parseAdditionalArgs rest with
          | .ok fsr => .ok ((k ++ "=" ++ jsToString v) :: fsr)
          | .error _ => .error ()

/-- One conditional push of `QueryBuilder.parseArgument`: if the value at
`key` is truthy, the single fragment `` `${pre}${value}` ``. -/
def defaultFrag (arg : QueryArgs) (key : String) (pre : String) : List String :=
  let v := arg.get key
  if truthy v then [pre ++ jsToString v] else []

/-- The default-key pushes of `QueryBuilder.parseArgument`, in source
order: `$skip`, `$top`, `$inlinecount`, `$expand`, `$orderBy`. -/
def defaultFrags (arg : QueryArgs) : List String :=
  defaultFrag arg "skip" "$skip=" ++
  defaultFrag arg "top" "$top=" ++
  defaultFrag arg "inlinecount" "$inlinecount=" ++
  defaultFrag arg "expand" "$expand=" ++
  defaultFrag arg "orderBy" "$orderBy=" ++ []

/-- Translation of `QueryBuilder.parseArgument`: the default-key fragments followed by
the additional-argument fragments. -/
def parseArgument (arg : QueryArgs) : Except Unit (List String) :=
  match parseAdditionalArgs arg.entries with
  | .ok extra => .ok (defaultFrags arg ++ extra)
  | .error _ => .error ()

/-- The `QueryBuilder` state: the argument history (`this.arguments`) and
the fragment sequence (`this.joinedArgs`). -/
structure QueryBuilder where
  arguments : List QueryArgs
  joinedArgs : List String

/-- A freshly constructed `QueryBuilder` (both fields initialised empty). -/
def QueryBuilder.empty : QueryBuilder := ⟨[], []⟩

/-- Translation of `QueryBuilder.addArgument`: append the argument to the history and its
fragments to the fragment sequence; propagates the `TypeError` that
`isAttributeArg` can throw on nullish values. -/
def QueryBuilder.addArgument (qb : QueryBuilder) (arg : QueryArgs) :
    Except Unit QueryBuilder :=
  match parseArgument arg with
  | .ok frags => .ok ⟨qb.arguments ++ [arg], qb.joinedArgs ++ frags⟩
  | .error _ => .error ()

/-- Translation of `QueryBuilder.getArguments`: the argument history. -/
def QueryBuilder.getArguments (qb : QueryBuilder) : List QueryArgs :=
  qb.arguments

/-- Translation of `QueryBuilder.flush`: empties both the argument history and the
fragment sequence. -/
def QueryBuilder.flush (_qb : QueryBuilder) : QueryBuilder := ⟨[], []⟩

/-- Translation of `QueryBuilder.build`: empty string when there are no fragments,
otherwise `?` followed by the fragments joined with `&`. -/
def QueryBuilder.build (qb : QueryBuilder) : String :=
  if qb.joinedArgs.length ≤ 0 then "" else "?" ++ String.intercalate "&" qb.joinedArgs

/-- Input domain of `constructQuery` in `utils.ts`:
`string | QueryBuilder | undefined | null`. -/
inductive QueryInput where
  | undefined : QueryInput
  | null : QueryInput
  | str (s : String) : QueryInput
  | builder (qb : QueryBuilder) : QueryInput

/-- JavaScript falsiness of a `constructQuery` input (`!query`): `undefined`,
`null` and the empty string are falsy; builder objects are always truthy. -/
def falsyInput : QueryInput → Bool
  | .undefined => true
  | .null => true
  | .str s => s == ""
  | .builder _ => false

/-- Translation of `constructQuery` from `utils.ts`: `""` for falsy input, a string
unchanged, and a builder's `build()` result. -/
def constructQuery (query : QueryInput) : String :=
  if falsyInput query then ""
  else
    match query with
    | .str s => s
    | .builder qb => qb.build
    | _ => ""

/-- A value that is neither `null` nor `undefined`, so property access on
it cannot throw. -/
def nonNullish : JSValue → Bool
  | .null => false
  | .undefined => false
  | _ => true

/-- Whether a value has the attribute-pair shape. -/
def isPairVal : JSValue → Bool
  | .pair _ _ => true
  | _ => false

/-- A custom-key value on which the encoder's serialization cannot throw:
everything except `null` itself, a sequence whose first element is
nullish, and an attribute-pair sequence containing a nullish element
(the cases where `isAttributeArg`/`handleAttributeArgument` dereference a
nullish receiver). -/
def safeValue : JSValue → Bool
  | .null => false
  | .arr [] => true
  | .arr (v0 :: rest) =>
    nonNullish v0 && (!isPairVal v0 || (v0 :: rest).all nonNullish)
  | _ => true

/-! ## Helper lemmas -/

/-- A key failing the `isDefaultKey` test differs from each of the five
keys that `parseArgument` reads by name. -/
theorem not_default_ne (ck : String) (h : isDefaultKey ck = false) :
    ck ≠ "skip" ∧ ck ≠ "top" ∧ ck ≠ "inlinecount" ∧ ck ≠ "expand" ∧ ck ≠ "orderBy" := by
  refine ⟨?_, ?_, ?_, ?_, ?_⟩ <;> rintro rfl <;> exact absurd h (by decide)

/-- Property read on a one-entry object with a different key yields
`undefined`. -/
theorem get_single_ne (k0 : String) (v : JSValue) (key : String) (h : k0 ≠ key) :
    QueryArgs.get ⟨[(k0, v)]⟩ key = .undefined := by
  have hb : (k0 == key) = false := beq_eq_false_iff_ne.mpr h
  simp [QueryArgs.get, List.find?, hb]

/-- A one-entry object at a non-default key produces no default-key
fragments. -/
theorem defaultFrags_custom_single (ck : String) (v : JSValue) (h : isDefaultKey ck = false) :
    defaultFrags ⟨[(ck, v)]⟩ = [] := by
  obtain ⟨h1, h2, h3, h4, h5⟩ := not_default_ne ck h
  simp [defaultFrags, defaultFrag, get_single_ne _ _ _ h1, get_single_ne _ _ _ h2,
    get_single_ne _ _ _ h3, get_single_ne _ _ _ h4, get_single_ne _ _ _ h5, truthy]

/-- When every entry key is a default key, the additional-argument pass
emits nothing. -/
theorem parseAdditionalArgs_all_default (l : List (String × JSValue))
    (h : ∀ p ∈ l, isDefaultKey p.1 = true) : parseAdditionalArgs l = .ok [] := by
  induction l with
  | nil => rfl
  | cons hd tl ih =>
    obtain ⟨k, v⟩ := hd
    have h1 : isDefaultKey k = true := h (k, v) (List.mem_cons_self _ _)
    have h2 := ih fun p hp => h p (List.mem_cons_of_mem _ hp)
    simpa [parseAdditionalArgs, h1] using h2

/-! ## Claim theorems -/

/-- C8: for every encoder state, `flush` clears both the argument history
and the fragment sequence: afterwards `build()` returns `""` and
`getArguments()` returns the empty sequence. -/
theorem flush_clears_builder (qb : QueryBuilder) :
    qb.flush.build = "" ∧ qb.flush.getArguments = [] :=
  ⟨rfl, rfl⟩

/-- C9: `constructQuery` is a three-way case split: absent input
(`undefined` or `null`) yields `""`, a string is passed through unchanged
(including the empty string), and a builder yields exactly its `build()`
result. -/
theorem constructQuery_case_split :
    (constructQuery .undefined = "" ∧ constructQuery .null = "") ∧
    (∀ s : String, constructQuery (.str s) = s) ∧
    (∀ qb : QueryBuilder, constructQuery (.builder qb) = qb.build) := by
  refine ⟨⟨rfl, rfl⟩, ?_, fun qb => rfl⟩
  intro s
  by_cases h : s = ""
  · subst h; rfl
  · simp [constructQuery, falsyInput, h]

/-- C6: a default key present with a falsy value (`skip`/`top` equal to
`0`, or `expand`/`orderBy`/`inlinecount` equal to `""`) emits no fragment,
while a truthy value emits exactly one fragment `<prefix><value>` — stated
uniformly for each of the five default keys over all values. -/
theorem falsy_default_values_dropped (v : JSValue) :
    ((QueryBuilder.empty.addArgument ⟨[("skip", v)]⟩).map QueryBuilder.joinedArgs
       = .ok (if truthy v then ["$skip=" ++ jsToString v] else [])) ∧
    ((QueryBuilder.empty.addArgument ⟨[("top", v)]⟩).map QueryBuilder.joinedArgs
       = .ok (if truthy v then ["$top=" ++ jsToString v] else [])) ∧
    ((QueryBuilder.empty.addArgument ⟨[("inlinecount", v)]⟩).map QueryBuilder.joinedArgs
       = .ok (if truthy v then ["$inlinecount=" ++ jsToString v] else [])) ∧
    ((QueryBuilder.empty.addArgument ⟨[("expand", v)]⟩).map QueryBuilder.joinedArgs
       = .ok (if truthy v then ["$expand=" ++ jsToString v] else [])) ∧
    ((QueryBuilder.empty.addArgument ⟨[("orderBy", v)]⟩).map QueryBuilder.joinedArgs
       = .ok (if truthy v then ["$orderBy=" ++ jsToString v] else [])) := by
  refine ⟨?_, ?_, ?_, ?_, ?_⟩ <;>
    cases htv : truthy v <;>
      simp [QueryBuilder.addArgument, QueryBuilder.empty, parseArgument,
        parseAdditionalArgs, defaultFrags, defaultFrag, QueryArgs.get, List.find?,
        isDefaultKey, DEFAULT_KEYS, Except.map, htv,
        show truthy JSValue.undefined = false from rfl]

/-- Structural detection accepts a pair (both fields defined). -/
theorem isAttributeArg_pair (k v : String) :
    isAttributeArg (JSValue.pair k v) = .ok true := rfl

/-- Structural detection rejects a string. -/
theorem isAttributeArg_str (s : String) :
    isAttributeArg (JSValue.str s) = .ok false := rfl

/-- Structural detection rejects a number. -/
theorem isAttributeArg_num (n : Int) :
    isAttributeArg (JSValue.num n) = .ok false := rfl

/-- Structural detection rejects an array. -/
theorem isAttributeArg_arr (xs : List JSValue) :
    isAttributeArg (JSValue.arr xs) = .ok false := rfl

/-- Structural detection throws on `null` (property access on `null`). -/
theorem isAttributeArg_null : isAttributeArg JSValue.null = .error () := rfl

/-- An attribute pair renders as `key=value`. -/
theorem handleAttributeArgument_pair (k v : String) :
    handleAttributeArgument (JSValue.pair k v) = .ok (k ++ "=" ++ v) := rfl

/-- The attribute-pair loop over a list of pairs renders each as
`key=value`, in order. -/
theorem attrFrags_pairs (ps : List (String × String)) :
    attrFrags (ps.map fun p => JSValue.pair p.1 p.2)
      = .ok (ps.map fun p => p.1 ++ "=" ++ p.2) := by
  induction ps with
  | nil => rfl
  | cons hd tl ih => simp [attrFrags, handleAttributeArgument_pair, ih]

/-- C10: an empty-sequence `expand` value is truthy and emits exactly the
single fragment `$expand=` (build gives `"?$expand="`), whereas an
empty-string `expand` emits nothing, and an empty sequence at a custom key
emits nothing. -/
theorem expand_empty_array_emits_fragment (ck : String) (h : isDefaultKey ck = false) :
    ((QueryBuilder.empty.addArgument ⟨[("expand", JSValue.arr [])]⟩).map QueryBuilder.build
       = .ok "?$expand=") ∧
    ((QueryBuilder.empty.addArgument ⟨[("expand", JSValue.str "")]⟩).map QueryBuilder.build
       = .ok "") ∧
    ((QueryBuilder.empty.addArgument ⟨[(ck, JSValue.arr [])]⟩).map QueryBuilder.joinedArgs
       = .ok []) := by
  refine ⟨rfl, rfl, ?_⟩
  simp [QueryBuilder.addArgument, QueryBuilder.empty, parseArgument, parseAdditionalArgs,
    handleArrayArg, h, defaultFrags_custom_single ck _ h, Except.map]

/-- Witness for C10 at the concrete custom key `"custom"`. -/
theorem expand_empty_array_emits_fragment_witness :
    isDefaultKey "custom" = false ∧
    ((QueryBuilder.empty.addArgument ⟨[("custom", JSValue.arr [])]⟩).map QueryBuilder.joinedArgs
       = .ok []) :=
  ⟨by decide, (expand_empty_array_emits_fragment "custom" (by decide)).2.2⟩

/-- C2: an attribute pair at a custom key renders under its own `key`
field, never under the enclosing key: a single pair emits the fragment
`<pair.key>=<pair.value>`, and a sequence of pairs emits one such fragment
per element in order. -/
theorem attributePair_renders_own_key (ck k v : String) (ps : List (String × String))
    (h : isDefaultKey ck = false) :
    ((QueryBuilder.empty.addArgument ⟨[(ck, JSValue.pair k v)]⟩).map QueryBuilder.joinedArgs
       = .ok [k ++ "=" ++ v]) ∧
    ((QueryBuilder.empty.addArgument
        ⟨[(ck, JSValue.arr (ps.map fun p => JSValue.pair p.1 p.2))]⟩).map
        QueryBuilder.joinedArgs
       = .ok (ps.map fun p => p.1 ++ "=" ++ p.2)) := by
  constructor
  · simp [QueryBuilder.addArgument, QueryBuilder.empty, parseArgument, parseAdditionalArgs,
      h, isAttributeArg_pair, handleAttributeArgument_pair,
      defaultFrags_custom_single ck _ h, Except.map]
  · cases ps with
    | nil =>
      simp [QueryBuilder.addArgument, QueryBuilder.empty, parseArgument, parseAdditionalArgs,
        h, handleArrayArg, defaultFrags_custom_single ck _ h, Except.map]
    | cons hd tl =>
      simp only [List.map_cons]
      simp [QueryBuilder.addArgument, QueryBuilder.empty, parseArgument, parseAdditionalArgs,
        h, handleArrayArg, isAttributeArg_pair,
        show attrFrags (JSValue.pair hd.1 hd.2 :: tl.map fun p => JSValue.pair p.1 p.2)
            = .ok ((hd.1 ++ "=" ++ hd.2) :: tl.map fun p => p.1 ++ "=" ++ p.2) from by
          simpa using attrFrags_pairs (hd :: tl),
        defaultFrags_custom_single ck _ h, Except.map]

/-- Witness for C2 at the concrete key `"attributes"` with the spec's
example pairs. -/
theorem attributePair_renders_own_key_witness :
    isDefaultKey "attributes" = false ∧
    ((QueryBuilder.empty.addArgument
        ⟨[("attributes", JSValue.pair "random" "value")]⟩).map QueryBuilder.joinedArgs
       = .ok ["random=value"]) ∧
    ((QueryBuilder.empty.addArgument
        ⟨[("attributes", JSValue.arr [JSValue.pair "a" "1", JSValue.pair "b" "2"])]⟩).map
        QueryBuilder.joinedArgs
       = .ok ["a=1", "b=2"]) := by
  have h := attributePair_renders_own_key "attributes" "random" "value"
    [("a", "1"), ("b", "2")] (by decide)
  exact ⟨by decide, h.1, h.2⟩

/-- C3: a custom key whose value is a sequence whose first element is not
an attribute pair (here: strings) emits one fragment `<key>=<element>` per
element in order; the empty sequence emits nothing. -/
theorem customArray_flattens_per_element (ck : String) (ss : List String)
    (h : isDefaultKey ck = false) :
    (QueryBuilder.empty.addArgument ⟨[(ck, JSValue.arr (ss.map JSValue.str))]⟩).map
        QueryBuilder.joinedArgs
      = .ok (ss.map fun s => ck ++ "=" ++ s) := by
  cases ss with
  | nil =>
    simp [QueryBuilder.addArgument, QueryBuilder.empty, parseArgument, parseAdditionalArgs,
      h, handleArrayArg, defaultFrags_custom_single ck _ h, Except.map]
  | cons s tl =>
    simp only [List.map_cons]
    simp [QueryBuilder.addArgument, QueryBuilder.empty, parseArgument, parseAdditionalArgs,
      h, handleArrayArg, isAttributeArg_str, jsToString,
      defaultFrags_custom_single ck _ h, Except.map]

/-- Witness for C3 at the concrete key `"priority"` with the spec's
example elements. -/
theorem customArray_flattens_per_element_witness :
    isDefaultKey "priority" = false ∧
    ((QueryBuilder.empty.addArgument
        ⟨[("priority", JSValue.arr [JSValue.str "LOW", JSValue.str "MEDIUM"])]⟩).map
        QueryBuilder.joinedArgs
       = .ok ["priority=LOW", "priority=MEDIUM"]) := by
  have h := customArray_flattens_per_element "priority" ["LOW", "MEDIUM"] (by decide)
  exact ⟨by decide, h⟩

/-- C5 counterexample: an entry with key `"inline"` and the defined scalar
value `"x"` emits no fragment at all — `build` gives `""`, not the
`"?inline=x"` the claim requires — because the source's `DEFAULT_KEYS` set
contains `"inline"` as a sixth member while `parseArgument` has no handler
for it. -/
theorem inline_key_emits_nothing :
    ((QueryBuilder.empty.addArgument ⟨[("inline", JSValue.str "x")]⟩).map QueryBuilder.build
        = .ok "") ∧
    ((QueryBuilder.empty.addArgument ⟨[("inline", JSValue.str "x")]⟩).map QueryBuilder.build
        ≠ .ok "?inline=x") := by
  refine ⟨rfl, fun hc => ?_⟩
  rw [show (QueryBuilder.empty.addArgument ⟨[("inline", JSValue.str "x")]⟩).map
      QueryBuilder.build = .ok "" from rfl] at hc
  exact absurd (Except.ok.inj hc) (by decide)

/-- C5 amended: the recognized-key set is the closed six-element set
`{skip, top, inline, expand, orderBy, inlinecount}`; an entry at any key
outside this set with a defined scalar value emits one fragment
`<key>=<value>`, while an entry with key `"inline"` emits no fragment
(recognized but handled by no default-key branch). -/
theorem default_key_set_is_six :
    (∀ k : String, isDefaultKey k = true ↔
       (k = "skip" ∨ k = "top" ∨ k = "inline" ∨ k = "expand" ∨ k = "orderBy" ∨
        k = "inlinecount")) ∧
    (∀ k s, isDefaultKey k = false →
       (QueryBuilder.empty.addArgument ⟨[(k, JSValue.str s)]⟩).map QueryBuilder.joinedArgs
         = .ok [k ++ "=" ++ s]) ∧
    (∀ k (n : Int), isDefaultKey k = false →
       (QueryBuilder.empty.addArgument ⟨[(k, JSValue.num n)]⟩).map QueryBuilder.joinedArgs
         = .ok [k ++ "=" ++ toString n]) ∧
    (∀ s : String,
       (QueryBuilder.empty.addArgument ⟨[("inline", JSValue.str s)]⟩).map
         QueryBuilder.joinedArgs = .ok []) := by
  refine ⟨?_, ?_, ?_, fun s => rfl⟩
  · intro k
    simp [isDefaultKey, DEFAULT_KEYS, List.contains]
  · intro k s hk
    simp [QueryBuilder.addArgument, QueryBuilder.empty, parseArgument, parseAdditionalArgs,
      hk, isAttributeArg_str, jsToString, defaultFrags_custom_single k _ hk, Except.map]
  · intro k n hk
    simp [QueryBuilder.addArgument, QueryBuilder.empty, parseArgument, parseAdditionalArgs,
      hk, isAttributeArg_num, jsToString, defaultFrags_custom_single k _ hk, Except.map]

/-- Witness for the amended C5 at the concrete custom key `"customA"`. -/
theorem default_key_set_is_six_witness :
    isDefaultKey "customA" = false ∧
    ((QueryBuilder.empty.addArgument ⟨[("customA", JSValue.str "val")]⟩).map
        QueryBuilder.joinedArgs = .ok ["customA=val"]) ∧
    ((QueryBuilder.empty.addArgument ⟨[("customA", JSValue.num 7)]⟩).map
        QueryBuilder.joinedArgs = .ok ["customA=7"]) := by
  have h := default_key_set_is_six
  exact ⟨by decide, h.2.1 "customA" "val" (by decide), h.2.2.1 "customA" 7 (by decide)⟩

/-- C1: when an argument object's entries all lie among the five spec-level
default keys and each of those keys holds a truthy value, one
`addArgument` followed by `build` yields the fragments in the fixed order
`$skip`, `$top`, `$inlinecount`, `$expand`, `$orderBy`, regardless of the
order in which the caller wrote the fields. -/
theorem addArgument_defaults_fixed_order (arg : QueryArgs) (s t i e o : JSValue)
    (hkeys : ∀ p ∈ arg.entries,
      p.1 ∈ (["skip", "top", "inlinecount", "expand", "orderBy"] : List String))
    (hs : arg.get "skip" = s) (hts : truthy s = true)
    (ht : arg.get "top" = t) (htt : truthy t = true)
    (hi : arg.get "inlinecount" = i) (hti : truthy i = true)
    (he : arg.get "expand" = e) (hte : truthy e = true)
    (ho : arg.get "orderBy" = o) (hto : truthy o = true) :
    (QueryBuilder.empty.addArgument arg).map QueryBuilder.build
      = .ok ("?$skip=" ++ jsToString s ++ "&$top=" ++ jsToString t ++ "&$inlinecount=" ++
          jsToString i ++ "&$expand=" ++ jsToString e ++ "&$orderBy=" ++ jsToString o) := by
  have hadd : parseAdditionalArgs arg.entries = .ok [] := by
    apply parseAdditionalArgs_all_default
    intro p hp
    have hmem := hkeys p hp
    simp only [List.mem_cons, List.not_mem_nil, or_false] at hmem
    rcases hmem with h | h | h | h | h <;> rw [h] <;> decide
  have hdf : defaultFrags arg = ["$skip=" ++ jsToString s, "$top=" ++ jsToString t,
      "$inlinecount=" ++ jsToString i, "$expand=" ++ jsToString e,
      "$orderBy=" ++ jsToString o] := by
    simp [defaultFrags, defaultFrag, hs, ht, hi, he, ho, hts, htt, hti, hte, hto]
  rw [show ("?$skip=" : String) = "?" ++ "$skip=" from rfl,
      show ("&$top=" : String) = "&" ++ "$top=" from rfl,
      show ("&$inlinecount=" : String) = "&" ++ "$inlinecount=" from rfl,
      show ("&$expand=" : String) = "&" ++ "$expand=" from rfl,
      show ("&$orderBy=" : String) = "&" ++ "$orderBy=" from rfl]
  simp only [QueryBuilder.addArgument, parseArgument, hadd, hdf, List.append_nil, Except.map]
  simp only [QueryBuilder.build, List.length_cons, List.length_nil, QueryBuilder.empty,
    List.nil_append]
  norm_num
  simp only [String.intercalate, String.intercalate.go, String.append_assoc]

/-- Witness for C1: the spec's example object, written in scrambled field
order, builds to the fixed-order query string. -/
theorem addArgument_defaults_fixed_order_witness :
    (QueryBuilder.empty.addArgument
        ⟨[("orderBy", JSValue.str "id desc"), ("top", JSValue.num 2),
          ("expand", JSValue.str "x"), ("inlinecount", JSValue.str "allpages"),
          ("skip", JSValue.num 10)]⟩).map QueryBuilder.build
      = .ok "?$skip=10&$top=2&$inlinecount=allpages&$expand=x&$orderBy=id desc" := by
  have h := addArgument_defaults_fixed_order
    ⟨[("orderBy", JSValue.str "id desc"), ("top", JSValue.num 2),
      ("expand", JSValue.str "x"), ("inlinecount", JSValue.str "allpages"),
      ("skip", JSValue.num 10)]⟩
    (JSValue.num 10) (JSValue.num 2) (JSValue.str "allpages") (JSValue.str "x")
    (JSValue.str "id desc")
    (by
      intro p hp
      simp only [List.mem_cons, List.not_mem_nil, or_false] at hp
      rcases hp with rfl | rfl | rfl | rfl | rfl <;> decide)
    rfl (by decide) rfl (by decide) rfl (by decide) rfl (by decide) rfl (by decide)
  rw [h]
  rfl

/-- C4 counterexample: a custom key whose value is `null` makes
`addArgument` raise (the structural pair-detection dereferences `null`),
contradicting the claim that the encoder never raises. -/
theorem addArgument_null_custom_raises :
    QueryBuilder.empty.addArgument ⟨[("foo", JSValue.null)]⟩ = .error () := rfl

/-- The attribute-pair loop succeeds on a list of non-nullish values. -/
theorem attrFrags_ok_of_nonNullish (l : List JSValue) (h : l.all nonNullish = true) :
    ∃ fs, attrFrags l = .ok fs := by
  induction l with
  | nil => exact ⟨[], rfl⟩
  | cons v tl ih =>
    simp only [List.all_cons, Bool.and_eq_true] at h
    obtain ⟨fs, hfs⟩ := ih h.2
    have hv : ∃ f, handleAttributeArgument v = .ok f := by
      cases v with
      | undefined => simp [nonNullish] at h
      | null => simp [nonNullish] at h
      | num n => exact ⟨_, rfl⟩
      | str s => exact ⟨_, rfl⟩
      | pair a b => exact ⟨_, rfl⟩
      | arr xs => exact ⟨_, rfl⟩
    obtain ⟨f, hf⟩ := hv
    exact ⟨f :: fs, by simp [attrFrags, hf, hfs]⟩

/-- Lemma: `handleArrayArg` succeeds on every safe sequence value. -/
theorem handleArrayArg_ok_of_safe (k : String) (xs : List JSValue)
    (h : safeValue (JSValue.arr xs) = true) : ∃ fs, handleArrayArg k xs = .ok fs := by
  cases xs with
  | nil => exact ⟨[], rfl⟩
  | cons v0 rest =>
    cases v0 with
    | null => exact absurd h (by simp [safeValue, nonNullish])
    | undefined => exact absurd h (by simp [safeValue, nonNullish])
    | num n =>
      exact ⟨(JSValue.num n :: rest).map fun el => k ++ "=" ++ jsToString el,
        by simp [handleArrayArg, isAttributeArg_num]⟩
    | str s =>
      exact ⟨(JSValue.str s :: rest).map fun el => k ++ "=" ++ jsToString el,
        by simp [handleArrayArg, isAttributeArg_str]⟩
    | arr ys =>
      exact ⟨(JSValue.arr ys :: rest).map fun el => k ++ "=" ++ jsToString el,
        by simp [handleArrayArg, isAttributeArg_arr]⟩
    | pair a b =>
      have hall : (JSValue.pair a b :: rest).all nonNullish = true := by
        simpa [safeValue, nonNullish, isPairVal, List.all_cons] using h
      obtain ⟨fs, hfs⟩ := attrFrags_ok_of_nonNullish _ hall
      exact ⟨fs, by simp [handleArrayArg, isAttributeArg_pair, hfs]⟩

/-- The additional-argument pass succeeds when every custom entry carries
a safe value. -/
theorem parseAdditionalArgs_ok_of_safe (l : List (String × JSValue))
    (h : ∀ p ∈ l, isDefaultKey p.1 = true ∨ safeValue p.2 = true) :
    ∃ fs, parseAdditionalArgs l = .ok fs := by
  induction l with
  | nil => exact ⟨[], rfl⟩
  | cons hd tl ih =>
    obtain ⟨k, v⟩ := hd
    obtain ⟨fs, hfs⟩ := ih fun p hp => h p (List.mem_cons_of_mem _ hp)
    by_cases hk : isDefaultKey k = true
    · exact ⟨fs, by simp [parseAdditionalArgs, hk, hfs]⟩
    · have hk' : isDefaultKey k = false := by simpa using hk
      have hsafe : safeValue v = true := by
        rcases h (k, v) (List.mem_cons_self _ _) with h' | h'
        · exact absurd h' hk
        · exact h'
      cases v with
      | undefined => exact ⟨fs, by simp [parseAdditionalArgs, hk', hfs]⟩
      | null => simp [safeValue] at hsafe
      | num n =>
        exact ⟨(k ++ "=" ++ jsToString (JSValue.num n)) :: fs,
          by simp [parseAdditionalArgs, hk', isAttributeArg_num, hfs]⟩
      | str s =>
        exact ⟨(k ++ "=" ++ jsToString (JSValue.str s)) :: fs,
          by simp [parseAdditionalArgs, hk', isAttributeArg_str, hfs]⟩
      | pair a b =>
        exact ⟨(a ++ "=" ++ b) :: fs,
          by simp [parseAdditionalArgs, hk', isAttributeArg_pair,
            handleAttributeArgument_pair, hfs]⟩
      | arr xs =>
        obtain ⟨afs, hafs⟩ := handleArrayArg_ok_of_safe k xs hsafe
        exact ⟨afs ++ fs, by simp [parseAdditionalArgs, hk', hafs, hfs]⟩

/-- C4 amended: `addArgument` never raises on argument objects whose
custom-key values are safe (not `null`, not a sequence with a nullish first
element, and not an attribute-pair sequence containing a nullish element);
on such objects it always succeeds, from any builder state. -/
theorem addArgument_total_on_safe_args (qb : QueryBuilder) (arg : QueryArgs)
    (h : ∀ p ∈ arg.entries, isDefaultKey p.1 = true ∨ safeValue p.2 = true) :
    ∃ qb2, qb.addArgument arg = .ok qb2 := by
  obtain ⟨fs, hfs⟩ := parseAdditionalArgs_ok_of_safe arg.entries h
  exact ⟨⟨qb.arguments ++ [arg], qb.joinedArgs ++ (defaultFrags arg ++ fs)⟩,
    by simp [QueryBuilder.addArgument, parseArgument, hfs]⟩

/-- Witness for the amended C4 on a concrete mixed argument object (a
default key, a scalar custom key, and a custom sequence containing a
`null` element after a non-pair head — which stringifies rather than
throws). -/
theorem addArgument_total_on_safe_args_witness :
    ∃ qb2, QueryBuilder.empty.addArgument
      ⟨[("skip", JSValue.num 3), ("note", JSValue.str "hi"),
        ("tags", JSValue.arr [JSValue.str "a", JSValue.null])]⟩ = .ok qb2 := by
  apply addArgument_total_on_safe_args
  intro p hp
  simp only [List.mem_cons, List.not_mem_nil, or_false] at hp
  rcases hp with rfl | rfl | rfl <;> decide

/-- C7: fragment ordering is call-order-stable and append-only — after two
successful `addArgument` calls, the original fragments are preserved as a
prefix, every fragment of the first argument precedes every fragment of
the second, and within each call the default-key fragments precede the
custom-key fragments produced from the entries in insertion order. -/
theorem fragment_order_call_stable (qb : QueryBuilder) (a b : QueryArgs)
    (qb1 qb2 : QueryBuilder)
    (h1 : qb.addArgument a = .ok qb1) (h2 : qb1.addArgument b = .ok qb2) :
    ∃ ca cb : List String,
      parseAdditionalArgs a.entries = .ok ca ∧
      parseAdditionalArgs b.entries = .ok cb ∧
      qb1.joinedArgs = qb.joinedArgs ++ (defaultFrags a ++ ca) ∧
      qb2.joinedArgs = qb.joinedArgs ++ (defaultFrags a ++ ca) ++ (defaultFrags b ++ cb) := by
  unfold QueryBuilder.addArgument parseArgument at h1 h2
  cases hca : parseAdditionalArgs a.entries with
  | error e => rw [hca] at h1; simp at h1
  | ok ca =>
    cases hcb : parseAdditionalArgs b.entries with
    | error e => rw [hcb] at h2; simp at h2
    | ok cb =>
      rw [hca] at h1
      rw [hcb] at h2
      have e1 := (Except.ok.inj h1).symm
      subst e1
      have e2 := (Except.ok.inj h2).symm
      subst e2
      exact ⟨ca, cb, rfl, rfl, rfl, by simp⟩

/-- Witness for C7: two concrete calls on a fresh builder, one default-key
argument followed by one custom-key argument. -/
theorem fragment_order_call_stable_witness :
    ∃ ca cb : List String,
      parseAdditionalArgs (QueryArgs.mk [("skip", JSValue.num 1)]).entries = .ok ca ∧
      parseAdditionalArgs (QueryArgs.mk [("x", JSValue.str "y")]).entries = .ok cb ∧
      (QueryBuilder.mk [⟨[("skip", JSValue.num 1)]⟩] ["$skip=1"]).joinedArgs
        = QueryBuilder.empty.joinedArgs ++
            (defaultFrags ⟨[("skip", JSValue.num 1)]⟩ ++ ca) ∧
      (QueryBuilder.mk [⟨[("skip", JSValue.num 1)]⟩, ⟨[("x", JSValue.str "y")]⟩]
          ["$skip=1", "x=y"]).joinedArgs
        = QueryBuilder.empty.joinedArgs ++
            (defaultFrags ⟨[("skip", JSValue.num 1)]⟩ ++ ca) ++
            (defaultFrags ⟨[("x", JSValue.str "y")]⟩ ++ cb) :=
  fragment_order_call_stable QueryBuilder.empty
    ⟨[("skip", JSValue.num 1)]⟩ ⟨[("x", JSValue.str "y")]⟩
    ⟨[⟨[("skip", JSValue.num 1)]⟩], ["$skip=1"]⟩
    ⟨[⟨[("skip", JSValue.num 1)]⟩, ⟨[("x", JSValue.str "y")]⟩], ["$skip=1", "x=y"]⟩
    rfl rfl
